import Mathlib

/-!
Verification of the spike-detection core of the bAnalysis repository
(sanpy/bAnalysis.py).

The Python source is shallowly embedded: numpy arrays become lists of
rationals, sample indices become integers, Python slice semantics
(negative-index wrapping plus clamping) are reproduced by pySlice, and
float arithmetic is idealised as exact rational arithmetic.  Values that
can hold Python None or a float NaN are modelled as Option values (none
encodes both None and NaN; the doc comment of each definition says
which).  Free-text diagnostic detail strings of error dictionaries are
not modelled; an error dictionary keeps its spike index, time and
category tag, which is all the analysis ever reads back.
-/

namespace BAnalysis

/-- Python slice bound normalisation for a sequence of length n: a
negative bound counts from the end of the sequence, then the result is
clamped to the interval from 0 to n. -/
def pyBound (n : Nat) (i : Int) : Nat :=
  if i < 0 then ((n : Int) + i).toNat else min i.toNat n

/-- Python step-1 slicing l[a:b] with CPython semantics, including
negative bounds counting from the end. -/
def pySlice {α : Type} (l : List α) (a b : Int) : List α :=
  (l.drop (pyBound l.length a)).take (pyBound l.length b - pyBound l.length a)

/-- Python indexing l[i] with negative wrap-around; out of range gives
the default value 0 (where CPython raises IndexError; the theorems never
rest on that case). -/
def pyGet (l : List ℚ) (i : Int) : ℚ :=
  if i < 0 then l.getD ((l.length : Int) + i).toNat 0 else l.getD i.toNat 0

/-- Auxiliary scan for npArgmax carrying the best index and value. -/
def npArgmaxAux (bi : Nat) (bv : ℚ) (i : Nat) : List ℚ → Nat
  | [] => bi
  | x :: xs => if bv < x then npArgmaxAux i x (i + 1) xs else npArgmaxAux bi bv (i + 1) xs

/-- np.argmax: index of the first occurrence of the maximum; 0 on the
empty list (where numpy raises ValueError; call sites that can receive
an empty list model that exception path explicitly). -/
def npArgmax : List ℚ → Nat
  | [] => 0
  | x :: xs => npArgmaxAux 0 x 1 xs

/-- Auxiliary scan for npArgmin carrying the best index and value. -/
def npArgminAux (bi : Nat) (bv : ℚ) (i : Nat) : List ℚ → Nat
  | [] => bi
  | x :: xs => if x < bv then npArgminAux i x (i + 1) xs else npArgminAux bi bv (i + 1) xs

/-- np.argmin: index of the first occurrence of the minimum; 0 on the
empty list. -/
def npArgmin : List ℚ → Nat
  | [] => 0
  | x :: xs => npArgminAux 0 x 1 xs

/-- np.max on a nonempty list; 0 on the empty list (numpy raises). -/
def npMax : List ℚ → ℚ
  | [] => 0
  | x :: xs => xs.foldl max x

/-- np.average and np.mean; none encodes the NaN numpy produces on an
empty input, and every comparison against none is false, exactly as
float NaN comparisons are false in Python. -/
def npAverage (l : List ℚ) : Option ℚ :=
  if l.isEmpty then none else some (l.sum / l.length)

/-- Population variance, the square of np.std; none on the empty list.
The source only ever compares a quantity against a multiple of np.std,
and those comparisons are restated on squares, which is exact. -/
def npVariance (l : List ℚ) : Option ℚ :=
  match npAverage l with
  | none => none
  | some m => some (((l.map fun x => (x - m) ^ 2).sum) / l.length)

/-- Python round() on a rational: round half to even. -/
def pyRound (q : ℚ) : Int :=
  if q - ⌊q⌋ < 1 / 2 then ⌊q⌋
  else if 1 / 2 < q - ⌊q⌋ then ⌊q⌋ + 1
  else if ⌊q⌋ % 2 = 0 then ⌊q⌋ else ⌊q⌋ + 1

/-- Python round(q, 4): round half to even at four decimal places. -/
def pyRound4 (q : ℚ) : ℚ :=
  (pyRound (q * 10000) : ℚ) / 10000

/-- Median of a list as numpy medfilt uses it: middle element of the
sorted window (windows always have odd length at the call sites). -/
def npMedian (l : List ℚ) : ℚ :=
  (l.insertionSort (· ≤ ·)).getD (l.length / 2) 0

/-- Signal access with zero padding outside the valid range, the edge
behaviour of scipy.signal.medfilt2d. -/
def zeroPadGet (l : List ℚ) (i : Int) : ℚ :=
  if 0 ≤ i ∧ i < (l.length : Int) then l.getD i.toNat 0 else 0

/-- scipy.signal.medfilt2d with kernel [k,1] on one sweep column (and
scipy.signal.medfilt on a 1-D array): sliding median of odd width k with
zero padding at the edges. -/
def medfilt (k : Nat) (l : List ℚ) : List ℚ :=
  (List.range l.length).map fun i =>
    npMedian ((List.range k).map fun j => zeroPadGet l ((i : Int) + (j : Int) - (k / 2 : Nat)))

/-- Determinant by Laplace expansion along the first row, with explicit
structural fuel (the row count); used only to solve the small normal
equations of the Savitzky-Golay filter. -/
def detQAux : Nat → List (List ℚ) → ℚ
  | _, [] => 1
  | 0, _ => 1
  | fuel + 1, row :: rest =>
    (List.range row.length).foldl
      (fun acc j =>
        acc + (if j % 2 = 0 then (1 : ℚ) else -1) * row.getD j 0 *
          detQAux fuel (rest.map fun r => r.eraseIdx j))
      0

/-- Determinant of a square rational matrix given as rows. -/
def detQ (m : List (List ℚ)) : ℚ :=
  detQAux m.length m

/-- Moment of order k of the symmetric integer window from -h to h. -/
def savgolMoment (h k : Nat) : ℚ :=
  ((List.range (2 * h + 1)).map fun x => ((x : ℚ) - (h : ℚ)) ^ k).sum

/-- Normal-equation matrix of the least-squares polynomial fit of order
p on the window from -h to h. -/
def savgolMatrix (h p : Nat) : List (List ℚ) :=
  (List.range (p + 1)).map fun a => (List.range (p + 1)).map fun b => savgolMoment h (a + b)

/-- Replace column j of a square matrix with the first standard basis
vector (Cramer solve against e0). -/
def replaceColE0 (m : List (List ℚ)) (j : Nat) : List (List ℚ) :=
  m.zipWith (fun row bi => row.set j bi) ((1 : ℚ) :: List.replicate m.length 0)

/-- Row zero of the inverse normal-equation matrix, by Cramer's rule:
the polynomial coefficients reproducing the fitted value at the window
centre. -/
def savgolZ (h p : Nat) : List ℚ :=
  let m := savgolMatrix h p
  (List.range (p + 1)).map fun j => detQ (replaceColE0 m j) / detQ m

/-- Convolution coefficients of scipy.signal.savgol_coeffs for window
length w and polynomial order p (derivative 0); symmetric, so the
correlation and convolution readings agree. -/
def savgolCoeffs (w p : Nat) : List ℚ :=
  let h := w / 2
  let z := savgolZ h p
  (List.range w).map fun xi =>
    ((List.range (p + 1)).map fun a => z.getD a 0 * ((xi : ℚ) - (h : ℚ)) ^ a).sum

/-- Signal access with edge replication, the mode nearest padding of
scipy.ndimage.convolve1d. -/
def nearestGet (l : List ℚ) (i : Int) : ℚ :=
  if l.isEmpty then 0 else l.getD (min (max i 0).toNat (l.length - 1)) 0

/-- scipy.signal.savgol_filter with mode nearest: correlate the
edge-replicated signal with the least-squares smoothing coefficients. -/
def savgolFilter (w p : Nat) (l : List ℚ) : List ℚ :=
  let c := savgolCoeffs w p
  let h := w / 2
  (List.range l.length).map fun i =>
    ((List.range w).map fun j => c.getD j 0 * nearestGet l ((i : Int) + (j : Int) - (h : Int))).sum

/-- np.diff along the time axis. -/
def npDiff (l : List ℚ) : List ℚ :=
  List.zipWith (fun a b => b - a) l l.tail

/-! ## StatAccessor: bAnalysis.getStat (bAnalysis.py lines 534-590)

getStat reads arbitrary named fields out of the spike dictionaries, so
for this component a spike record is embedded generically as an
association list from field names to Python values. -/

/-- Python value as seen by getStat: None, float NaN, a string, or a
number (int and float collapsed into one exact rational constructor). -/
inductive PyVal where
  | pnone
  | nan
  | str (s : String)
  | num (q : ℚ)
deriving DecidableEq

/-- Python equality (==) on PyVal.  None == None is True, NaN == NaN is
False, values of different types compare unequal. -/
def pyEq : PyVal → PyVal → Bool
  | .pnone, .pnone => true
  | .str a, .str b => a == b
  | .num a, .num b => a == b
  | _, _ => false

/-- Local helper clean() of getStat: convert None to float NaN. -/
def cleanVal : PyVal → PyVal
  | .pnone => .nan
  | v => v

/-- Dictionary field read spike[k]; missing keys give None (where
CPython raises KeyError; the theorems guard key presence through the
spikeDict[0] check exactly as the source does). -/
def recGet (r : List (String × PyVal)) (k : String) : PyVal :=
  (((r.find? fun kv => kv.1 == k).map fun kv => kv.2)).getD .pnone

/-- Membership test k in spike.keys(). -/
def hasKey (r : List (String × PyVal)) (k : String) : Bool :=
  (r.find? fun kv => kv.1 == k).isSome

/-- Return shape of getStat: one list, or a pair of lists when a second
statistic name is given. -/
inductive StatResult where
  | single (x : List PyVal)
  | pair (x y : List PyVal)
deriving DecidableEq

/-- Shallow embedding of bAnalysis.getStat (bAnalysis.py 534-590).  The
source line under `if sweepNumber is None:` reads `sweepNumber=='All'`,
a bare comparison expression rather than an assignment, so it binds
nothing and leaves sweepNumber unchanged; accordingly it contributes
nothing here.  On any error (no spikes, unknown statName1 or statName2)
the source logs a warning and falls through with x and y still the empty
lists it initialised, returning them normally; there is no raise
statement in the source function. -/
def getStat (spikeDict : List (List (String × PyVal))) (statName1 : String)
    (statName2 : Option String) (sweepNumber : PyVal) : StatResult :=
  let error : Bool :=
    if spikeDict.length == 0 then true
    else if !(hasKey (spikeDict.headD []) statName1) then true
    else match statName2 with
      | some s2 => !(hasKey (spikeDict.headD []) s2)
      | none => false
  let keep : List (String × PyVal) → Bool := fun spike =>
    pyEq sweepNumber (.str "All") || pyEq (recGet spike "sweep") sweepNumber
  let x := if error then [] else
    (spikeDict.filter keep).map fun spike => cleanVal (recGet spike statName1)
  match statName2 with
  | some s2 =>
    let y := if error then [] else
      (spikeDict.filter keep).map fun spike => cleanVal (recGet spike s2)
    .pair x y
  | none => .single x

/-- Helper: under sweepNumber None, no spike with a numeric sweep field
passes the getStat filter. -/
theorem pyEq_num_pnone (q : ℚ) : pyEq (PyVal.num q) PyVal.pnone = false := rfl

/-- C3: with the default sweepNumber None, getStat returns an empty list
(an empty pair when a second statistic is requested), because the
source's normalisation line is a comparison rather than an assignment,
sweepNumber stays None, and no spike with a numeric sweep field passes
the filter sweepNumber equals the string All or spike sweep equals
sweepNumber. -/
theorem getStat_sweepNone_empty (spikeDict : List (List (String × PyVal)))
    (n1 : String) (n2 : Option String)
    (hsw : ∀ r ∈ spikeDict, ∃ q : ℚ, recGet r "sweep" = .num q) :
    getStat spikeDict n1 n2 .pnone =
      (match n2 with | none => .single [] | some _ => .pair [] []) := by
  have hf : (spikeDict.filter fun spike =>
      pyEq PyVal.pnone (.str "All") || pyEq (recGet spike "sweep") PyVal.pnone) = [] := by
    rw [List.filter_eq_nil_iff]
    intro r hr
    obtain ⟨q, hq⟩ := hsw r hr
    simp [pyEq, hq]
  unfold getStat
  cases n2 <;> simp [hf]

/-- Witness for C3 at a concrete one-spike dictionary. -/
theorem getStat_sweepNone_empty_witness :
    getStat [[("sweep", PyVal.num 0), ("thresholdPnt", PyVal.num 5)]]
      "thresholdPnt" none PyVal.pnone = .single [] := by
  apply getStat_sweepNone_empty
  intro r hr
  simp only [List.mem_singleton] at hr
  exact ⟨0, by rw [hr]; rfl⟩

/-- Counterexample for C4: with a statistic name that is not a key of
the spike records, getStat returns the value single [] normally; no
exception of any kind is raised by the source, which only logs a
warning, so the claim that the call fails with a typed UnknownStatistic
error is false. -/
theorem getStat_unknown_returns_normally :
    getStat [[("sweep", PyVal.num 0), ("peakVal", PyVal.num 3)]]
      "bogusStatName" none (PyVal.str "All") = .single [] := by
  rfl

/-- C4 amended: for any recording, calling getStat with a statName1 that
is not a key of the first spike record returns normally with an empty
list (an empty pair when statName2 is given) after logging a warning; no
typed error is raised. -/
theorem getStat_unknown_stat_empty (spikeDict : List (List (String × PyVal)))
    (n1 : String) (n2 : Option String) (sweepNumber : PyVal)
    (h : hasKey (spikeDict.headD []) n1 = false) :
    getStat spikeDict n1 n2 sweepNumber =
      (match n2 with | none => .single [] | some _ => .pair [] []) := by
  unfold getStat
  rw [List.headD_eq_head?] at h
  cases n2 <;> simp [h]

/-- Witness for the amended C4 theorem at a concrete input. -/
theorem getStat_unknown_stat_empty_witness :
    getStat [[("sweep", PyVal.num 1)]] "widths_55" (some "peakVal") (PyVal.num 1) =
      .pair [] [] := by
  apply getStat_unknown_stat_empty
  rfl

/-! ## DetectionConfig: bAnalysis.getDefaultDetection -/

/-- Detection configuration dictionary (a typed view of the flat Python
dict).  dvdtThreshold none models both None and float NaN, the two
values that select amplitude-only detection in spikeDetect__. -/
structure DetectParams where
  dvdtThreshold : Option ℚ
  mvThreshold : ℚ
  medianFilter : Nat
  savitzkyGolayPnts : Nat
  savitzkyGolayPoly : Nat
  halfHeights : List Int
  mdpMs : ℚ
  refractoryMs : ℚ
  peakWindowMs : ℚ
  dvdtPreWindowMs : ℚ
  avgWindowMs : ℚ
  dvdtPercentOfMax : ℚ
  halfWidthWindowMs : ℚ
  doBackupSpikeVm : Bool
  spikeClipWidthMs : ℚ
  onlyPeaksAboveMv : Option ℚ
  cellType : String
  sex : String
  condition : String
  verbose : Bool
deriving DecidableEq

/-- Embedding of bAnalysis.getDefaultDetection() with no cell type
(bAnalysis.py 44-113); startSeconds and stopSeconds are None and unused
by the detection path. -/
def defaultDetection : DetectParams where
  dvdtThreshold := some 100
  mvThreshold := -20
  medianFilter := 0
  savitzkyGolayPnts := 5
  savitzkyGolayPoly := 2
  halfHeights := [10, 20, 50, 80, 90]
  mdpMs := 250
  refractoryMs := 170
  peakWindowMs := 100
  dvdtPreWindowMs := 10
  avgWindowMs := 5
  dvdtPercentOfMax := 1 / 10
  halfWidthWindowMs := 200
  doBackupSpikeVm := true
  spikeClipWidthMs := 500
  onlyPeaksAboveMv := some (-20)
  cellType := ""
  sex := ""
  condition := ""
  verbose := false

/-! ## ThresholdCrossingDetector: candidate crossings

Both detection modes start from
  Is=np.where(signal>threshold)[0]; Is=np.concatenate(([0],Is));
  Ds=Is[:-1]-Is[1:]+1; spikeTimes0=Is[np.where(Ds)[0]+1]
(bAnalysis.py 917-921 and 1053-1056): element Is[k] survives exactly
when it differs from its predecessor in the 0-prepended index list plus
one. -/

/-- Indices at which the signal strictly exceeds the threshold:
np.where(signal > threshold)[0]. -/
def supraIdx (xs : List ℚ) (th : ℚ) : List Nat :=
  (List.range xs.length).filter fun i => decide (th < xs.getD i 0)

/-- Run-start selection against the previous element of the 0-prepended
index list: keep i exactly when i differs from prev + 1 (the condition
Ds not equal 0 of the source). -/
def selectStarts : Nat → List Nat → List Nat
  | _, [] => []
  | prev, i :: rest => (if i ≠ prev + 1 then [i] else []) ++ selectStarts i rest

/-- Candidate crossing points of one sweep, shared by _spikeDetect_dvdt
and _spikeDetect_vm. -/
def crossings (xs : List ℚ) (th : ℚ) : List Nat :=
  selectStarts 0 (supraIdx xs th)

/-! ## Refractory collapsing: bAnalysis._throwOutRefractory -/

/-- Marking pass of _throwOutRefractory: walk the spike times carrying
the value of the last good spike; a time closer than the threshold (in
points) to the last good one is overwritten with 0, otherwise it becomes
the new last good spike. -/
def refractoryMark (thresh : ℚ) (lastVal : Int) : List Int → List Int
  | [] => []
  | t :: rest =>
    if ((t : ℚ) - (lastVal : ℚ)) < thresh then 0 :: refractoryMark thresh lastVal rest
    else t :: refractoryMark thresh t rest

/-- Embedding of bAnalysis._throwOutRefractory (bAnalysis.py 843-877) on
the spike-time list: the first spike is always good, a later spike is
zeroed when it lies within dataPointsPerMs*refractory_ms points of the
last good spike, and finally every zero entry is dropped by the
truthiness filter `if spikeTime` (which would also drop a genuine first
spike at point 0). -/
def throwOutRefractory (dpms refractoryMs : ℚ) (times : List Int) : List Int :=
  let marked := match times with
    | [] => []
    | t0 :: rest => t0 :: refractoryMark (dpms * refractoryMs) t0 rest
  marked.filter fun t => t != 0

/-- Parallel error-list filtering of _throwOutRefractory: when an error
list is passed (amplitude mode), it is filtered positionally by the same
nonzero test on the marked times. -/
def throwOutRefractoryErrs {ε : Type} (dpms refractoryMs : ℚ)
    (times : List Int) (errs : Option (List ε)) : Option (List ε) :=
  match errs with
  | none => none
  | some es =>
    let marked := match times with
      | [] => []
      | t0 :: rest => t0 :: refractoryMark (dpms * refractoryMs) t0 rest
    some (((es.zip marked).filter fun p => p.2 != 0).map fun p => p.1)

/-! ## Error dictionaries and the dvdt percent-of-max refinement -/

/-- Embedding of bAnalysis._getErrorDict: spike index, time of the point
in seconds rounded to four decimals, and the category tag; the free-text
detail string is purely diagnostic and not modelled. -/
structure ErrDict where
  spike : Nat
  seconds : ℚ
  typ : String
deriving DecidableEq

/-- Build one error dictionary (bAnalysis.py 879-891). -/
def getErrorDict (dpms : ℚ) (spikeNumber : Nat) (pnt : Int) (typ : String) : ErrDict :=
  ⟨spikeNumber, pyRound4 ((pnt : ℚ) / dpms / 1000), typ⟩

/-- Percent-of-max target value for one crossing: the derivative at the
forward local maximum of the post-crossing window, times
dvdt_percentOfMax. -/
def dvdtPercentMaxVal (fd : List ℚ) (w : Nat) (pom : ℚ) (t : Int) : ℚ :=
  pyGet fd ((npArgmax (pySlice fd t (t + (w : Int)))) + t) * pom

/-- Backward search of the time-reversed pre-crossing derivative window
for the first sample strictly below the percent-of-max target:
np.where(np.flip(preDerivClip) < percentMaxVal)[0][0]. -/
def dvdtBackSearch (fd : List ℚ) (w : Nat) (pom : ℚ) (t : Int) : Option Nat :=
  (pySlice fd (t - (w : Int)) t).reverse.findIdx? fun q => decide (q < dvdtPercentMaxVal fd w pom t)

/-- Result of refining one crossing: ok carries the refined time and an
optional error entry appended to the parallel error list; exc models the
except branch (np.argmax raising on an empty post-crossing window),
which appends the original time to the time list but nothing to the
error list. -/
inductive RefineOut where
  | ok (t : Int) (err : Option ErrDict)
  | exc (t : Int)
deriving DecidableEq

/-- Refinement of one surviving crossing in _spikeDetect_dvdt
(bAnalysis.py 960-1022): on success the refined onset is the crossing
minus the backward-search offset minus one; when no derivative sample
below the target exists the original crossing is kept together with a
dvdtPercent error dictionary. -/
def refineOne (dpms : ℚ) (fd : List ℚ) (w : Nat) (pom : ℚ) (i : Nat) (t : Int) : RefineOut :=
  if (pySlice fd t (t + (w : Int))).isEmpty then .exc t
  else
    match dvdtBackSearch fd w pom t with
    | some k => .ok (t - k - 1) none
    | none => .ok t (some (getErrorDict dpms i t "dvdtPercent"))

/-- Detector output: onset times plus the parallel per-onset error list
(which the except branch of the source leaves shorter than the times). -/
structure DetectOut where
  times : List Int
  errs : List (Option ErrDict)
deriving DecidableEq

/-- Refinement pass over all surviving crossings, in time order, with
the enumerate index used for error dictionaries. -/
def refineAll (dpms : ℚ) (fd : List ℚ) (w : Nat) (pom : ℚ) : Nat → List Int → DetectOut
  | _, [] => ⟨[], []⟩
  | i, t :: rest =>
    let r := refineAll dpms fd w pom (i + 1) rest
    match refineOne dpms fd w pom i t with
    | .ok t1 e => ⟨t1 :: r.times, e :: r.errs⟩
    | .exc t1 => ⟨t1 :: r.times, r.errs⟩

/-- Embedding of bAnalysis._spikeDetect_dvdt (bAnalysis.py 897-1022) on
one sweep: threshold crossings of the filtered derivative, the peak
amplitude gate against mvThreshold, refractory collapsing, then the
percent-of-max onset refinement.  The function is dispatched only when
dvdtThreshold is set, so the getD default is never read. -/
def spikeDetect_dvdt (p : DetectParams) (dpms : ℚ) (fd sweepY : List ℚ) : DetectOut :=
  let spikeTimes0 := (crossings fd (p.dvdtThreshold.getD 0)).map fun n => (n : Int)
  let peakWindowPnts := pyRound (dpms * p.peakWindowMs)
  let goodSpikeTimes := spikeTimes0.filter fun t =>
    decide (p.mvThreshold < npMax (pySlice sweepY t (t + peakWindowPnts)))
  let collapsed := throwOutRefractory dpms p.refractoryMs goodSpikeTimes
  let windowPnts := (pyRound (p.dvdtPreWindowMs * dpms)).toNat
  refineAll dpms fd windowPnts p.dvdtPercentOfMax 0 collapsed

/-! ## Concrete detection input used by several witnesses

A 20-sample sweep at 1 data point per ms.  The derivative has
suprathreshold runs starting at samples 5 and 15 (threshold 1); the
backward percent-of-max search fails for the first crossing (every
pre-crossing sample equals the 50 percent target) and succeeds for the
second one at flip offset 4, refining onset 15 to 15 - 4 - 1 = 10. -/

/-- Filtered-derivative trace of the concrete detection input. -/
def ctrexDeriv : List ℚ := [1, 1, 1, 1, 1, 2, 2, 2, 2, 2, 0, 1, 1, 1, 1, 2, 2, 2, 2, 2]

/-- Amplitude trace of the concrete detection input (constant 1, above
the peak gate threshold 0). -/
def ctrexSweepY : List ℚ := List.replicate 20 1

/-- Detection configuration of the concrete detection input:
dvdt mode, refractory 10 ms, pre-window 5 ms, percent of max one half. -/
def ctrexParams : DetectParams :=
  { defaultDetection with
      dvdtThreshold := some 1
      mvThreshold := 0
      refractoryMs := 10
      peakWindowMs := 2
      dvdtPreWindowMs := 5
      dvdtPercentOfMax := 1 / 2 }

/-! ## Theorems for C10, C1, C8 -/

/-- Membership in selectStarts for a strictly sorted index list whose
elements dominate the seed: an index is kept exactly when it is in the
list, is not seed + 1, and is either 0 or has no predecessor index in
the list. -/
theorem mem_selectStarts : ∀ (l : List Nat), l.Pairwise (· < ·) → ∀ (prev j : Nat),
    (∀ x ∈ l, prev ≤ x) →
    (j ∈ selectStarts prev l ↔ j ∈ l ∧ j ≠ prev + 1 ∧ (j = 0 ∨ j - 1 ∉ l))
  | [], _, prev, j, _ => by simp [selectStarts]
  | i :: rest, hl, prev, j, hp => by
    have hi : ∀ x ∈ rest, i < x := (List.pairwise_cons.mp hl).1
    have hrest : rest.Pairwise (· < ·) := (List.pairwise_cons.mp hl).2
    have hpi : prev ≤ i := hp i (List.mem_cons_self i rest)
    have ihx := mem_selectStarts rest hrest i j fun x hx => (hi x hx).le
    simp only [selectStarts, List.mem_append, List.mem_cons]
    by_cases hji : j = i
    · subst hji
      have hir : j ∉ rest := fun h => absurd (hi j h) (lt_irrefl j)
      have hsel : j ∉ selectStarts j rest := fun h => hir (ihx.mp h).1
      constructor
      · rintro (h1 | h2)
        · by_cases hne : j ≠ prev + 1
          · refine ⟨Or.inl rfl, hne, ?_⟩
            by_cases hj0 : j = 0
            · exact Or.inl hj0
            · right
              rintro (he | hm)
              · omega
              · exact absurd (hi _ hm) (by omega)
          · rw [if_neg hne] at h1
            exact absurd h1 (List.not_mem_nil j)
        · exact absurd h2 hsel
      · rintro ⟨_, hne, _⟩
        left
        rw [if_pos hne]
        exact List.mem_singleton_self j
    · constructor
      · rintro (h1 | h2)
        · by_cases hne : i ≠ prev + 1
          · rw [if_pos hne] at h1
            rw [List.mem_singleton] at h1
            exact absurd h1 hji
          · rw [if_neg hne] at h1
            exact absurd h1 (List.not_mem_nil j)
        · obtain ⟨hjr, hne, hz⟩ := ihx.mp h2
          have hij : i < j := hi j hjr
          refine ⟨Or.inr hjr, by omega, ?_⟩
          rcases hz with h0 | hnm
          · exact Or.inl h0
          · right
            rintro (he | hm)
            · exact hne (by omega)
            · exact hnm hm
      · rintro ⟨hjm, hne, hz⟩
        rcases hjm with he | hjr
        · exact absurd he hji
        · right
          apply ihx.mpr
          have hij : i < j := hi j hjr
          refine ⟨hjr, ?_, ?_⟩
          · rcases hz with h0 | hnm
            · omega
            · intro he2
              exact hnm (Or.inl (by omega))
          · rcases hz with h0 | hnm
            · exact Or.inl h0
            · right
              exact fun hm => hnm (Or.inr hm)

/-- C10: in both detection modes a suprathreshold sample j becomes a
candidate crossing exactly when the signal exceeds the threshold at j
and j is either 0 or the start (at index at least 2) of a run; a run
whose first suprathreshold sample is index 1 yields no candidate,
because the prepended sentinel 0 merges with it. -/
theorem crossings_mem (xs : List ℚ) (th : ℚ) (j : Nat) :
    j ∈ crossings xs th ↔
      th < xs.getD j 0 ∧ j < xs.length ∧
        (j = 0 ∨ (2 ≤ j ∧ ¬ th < xs.getD (j - 1) 0)) := by
  have hsup : ∀ k, k ∈ supraIdx xs th ↔ k < xs.length ∧ th < xs.getD k 0 := by
    intro k
    simp [supraIdx, List.mem_filter, List.mem_range]
  have hpw : (supraIdx xs th).Pairwise (· < ·) :=
    List.Pairwise.filter _ (List.pairwise_lt_range _)
  rw [crossings, mem_selectStarts _ hpw 0 j fun x _ => Nat.zero_le x, hsup]
  constructor
  · rintro ⟨⟨hlen, hth⟩, hne1, hz⟩
    refine ⟨hth, hlen, ?_⟩
    by_cases hj0 : j = 0
    · exact Or.inl hj0
    · right
      refine ⟨by omega, ?_⟩
      rcases hz with h0 | hnm
      · exact absurd h0 hj0
      · intro hth1
        exact hnm ((hsup (j - 1)).mpr ⟨by omega, hth1⟩)
  · rintro ⟨hth, hlen, hz⟩
    rcases hz with hj0 | ⟨hj2, hth1⟩
    · exact ⟨⟨hlen, hth⟩, by omega, Or.inl hj0⟩
    · refine ⟨⟨hlen, hth⟩, by omega, Or.inr ?_⟩
      intro hm
      exact hth1 ((hsup (j - 1)).mp hm).2

/-- Chain invariant of the refractory marking pass: starting from a
nonnegative last good value, all surviving (nonzero) entries are at
least the threshold apart, and the first survivor is at least the
threshold after the last good value. -/
theorem refractoryMark_chain (thresh : ℚ) (hpos : 0 < thresh) :
    ∀ (l : List Int) (lastVal : Int), 0 ≤ lastVal →
      List.Chain' (fun a b : Int => thresh ≤ (b : ℚ) - (a : ℚ))
        (lastVal :: ((refractoryMark thresh lastVal l).filter fun t => t != 0))
  | [], lastVal, _ => by simp [refractoryMark]
  | t :: rest, lastVal, hlv => by
    by_cases hc : ((t : ℚ) - (lastVal : ℚ)) < thresh
    · rw [refractoryMark, if_pos hc, List.filter_cons_of_neg (by simp)]
      exact refractoryMark_chain thresh hpos rest lastVal hlv
    · rw [refractoryMark, if_neg hc]
      push_neg at hc
      have hlvQ : (0 : ℚ) ≤ (lastVal : ℚ) := by exact_mod_cast hlv
      have ht0 : (0 : ℚ) < (t : ℚ) := by linarith
      have htZ : (0 : Int) < t := by exact_mod_cast ht0
      rw [List.filter_cons_of_pos (by simp; omega)]
      rw [List.chain'_cons]
      exact ⟨hc, refractoryMark_chain thresh hpos rest t htZ.le⟩

/-- C1 amended: the onset list returned by _throwOutRefractory satisfies
the refractory invariant: consecutive surviving onsets are at least
refractory_ms apart after conversion by dataPointsPerMs.  The claim as
stated, which extends the invariant past the subsequent onset-refinement
steps, is refuted by spikeDetect_dvdt_breaks_refractory below. -/
theorem throwOutRefractory_refractory (dpms refractoryMs : ℚ) (times : List Int)
    (hd : 0 < dpms) (hr : 0 < refractoryMs) (hnn : ∀ t ∈ times, 0 ≤ t) :
    List.Chain' (fun a b : Int => refractoryMs ≤ ((b : ℚ) - (a : ℚ)) / dpms)
      (throwOutRefractory dpms refractoryMs times) := by
  have hpos : 0 < dpms * refractoryMs := mul_pos hd hr
  have himp : ∀ a b : Int, dpms * refractoryMs ≤ (b : ℚ) - (a : ℚ) →
      refractoryMs ≤ ((b : ℚ) - (a : ℚ)) / dpms := by
    intro a b h
    rw [le_div_iff₀ hd, mul_comm]
    exact h
  cases times with
  | nil => simp [throwOutRefractory]
  | cons t0 rest =>
    have h0 : (0 : Int) ≤ t0 := hnn t0 (List.mem_cons_self t0 rest)
    have hch := refractoryMark_chain (dpms * refractoryMs) hpos rest t0 h0
    unfold throwOutRefractory
    by_cases ht0 : t0 = 0
    · rw [List.filter_cons_of_neg (by simp [ht0])]
      exact (hch.tail).imp himp
    · rw [List.filter_cons_of_pos (by simp [ht0])]
      exact hch.imp himp

/-- Witness for the amended C1 theorem: a concrete spike-time list with
one too-early spike (20 is only 5 points after 15) collapses to a list
satisfying the refractory chain. -/
theorem throwOutRefractory_refractory_witness :
    List.Chain' (fun a b : Int => (10 : ℚ) ≤ ((b : ℚ) - (a : ℚ)) / 1)
      (throwOutRefractory 1 10 [5, 15, 20]) :=
  throwOutRefractory_refractory 1 10 [5, 15, 20] (by norm_num) (by norm_num) (by decide)

unseal Rat.mul Rat.add Rat.sub Rat.inv in
/-- Counterexample for C1: on the concrete detection input the run
returns consecutive onsets 5 and 10, only 5 ms apart with a configured
refractory of 10 ms: the crossings 5 and 15 survive refractory
collapsing, but the percent-of-max refinement that runs afterwards moves
the second onset back to 10 while the first stays (its backward search
fails), so the final onsets violate the refractory invariant. -/
theorem spikeDetect_dvdt_breaks_refractory :
    (spikeDetect_dvdt ctrexParams 1 ctrexDeriv ctrexSweepY).times = [5, 10] ∧
    throwOutRefractory 1 ctrexParams.refractoryMs [5, 15] = [5, 15] ∧
    ¬ List.Chain' (fun a b : Int => ctrexParams.refractoryMs ≤ ((b : ℚ) - (a : ℚ)) / 1)
      (spikeDetect_dvdt ctrexParams 1 ctrexDeriv ctrexSweepY).times := by
  have ht : (spikeDetect_dvdt ctrexParams 1 ctrexDeriv ctrexSweepY).times = [5, 10] := by
    decide
  refine ⟨ht, by decide, ?_⟩
  rw [ht]
  intro hch
  have h5 : ctrexParams.refractoryMs ≤ ((10 : ℚ) - (5 : ℚ)) / 1 :=
    (List.chain'_cons.mp hch).1
  have : ctrexParams.refractoryMs = 10 := rfl
  rw [this] at h5
  norm_num at h5

/-- C8: refinement of one surviving crossing in derivative mode: when
the backward percent-of-max search finds no derivative sample strictly
below the target, the original crossing is kept and a dvdtPercent error
dictionary is emitted; when the search succeeds at flip offset k, the
refined onset is the crossing minus k minus one and no error is emitted.
The hypothesis states that the post-crossing window is nonempty, which
is exactly the condition under which the source's try block does not
raise. -/
theorem refineOne_spec (dpms : ℚ) (fd : List ℚ) (w : Nat) (pom : ℚ) (i : Nat) (t : Int)
    (hpost : pySlice fd t (t + (w : Int)) ≠ []) :
    (dvdtBackSearch fd w pom t = none →
      refineOne dpms fd w pom i t = .ok t (some (getErrorDict dpms i t "dvdtPercent"))) ∧
    ∀ k, dvdtBackSearch fd w pom t = some k →
      refineOne dpms fd w pom i t = .ok (t - k - 1) none := by
  have hpe : ¬ ((pySlice fd t (t + (w : Int))).isEmpty = true) := by
    simpa [List.isEmpty_iff] using hpost
  constructor
  · intro h
    rw [refineOne, if_neg hpe, h]
  · intro k h
    rw [refineOne, if_neg hpe, h]

unseal Rat.mul Rat.add Rat.sub Rat.inv in
/-- Witness for C8 on the concrete detection input: the first onset (5)
has no pre-crossing derivative sample below half of the local peak
derivative, so it keeps its crossing and receives a dvdtPercent error
dictionary; the second onset (15) finds one at flip offset 4 and is
refined to 10 with no error. -/
theorem refineOne_spec_witness :
    refineOne 1 ctrexDeriv 5 (1 / 2) 0 5 =
        .ok 5 (some (getErrorDict 1 0 5 "dvdtPercent")) ∧
    refineOne 1 ctrexDeriv 5 (1 / 2) 1 15 = .ok (15 - (4 : Nat) - 1) none :=
  ⟨(refineOne_spec 1 ctrexDeriv 5 (1 / 2) 0 5 (by decide)).1 (by decide),
   (refineOne_spec 1 ctrexDeriv 5 (1 / 2) 1 15 (by decide)).2 4 (by decide)⟩

/-! ## SignalFilter: _getDerivative, _getFilteredRecording, rebuildFiltered -/

/-- Python int() truncation toward zero on a rational. -/
def pyInt (q : ℚ) : Int :=
  if q < 0 then -⌊-q⌋ else ⌊q⌋

/-- Filtered per-sweep arrays cached on the recording. -/
structure FilteredArrays where
  filteredVm : List ℚ
  filteredDeriv : List ℚ
deriving DecidableEq

/-- Embedding of bAnalysis._getDerivative (bAnalysis.py 669-728) on one
sweep, parameterised by the detection dictionary it receives: median
filter (width forced odd) or Savitzky-Golay smoothing of the amplitude,
first difference, the same filter applied again to the derivative,
scaling by dataPointsPerMs, and a prepended zero row so the derivative
matches the amplitude length. -/
def getDerivative (p : DetectParams) (dpms : ℚ) (raw : List ℚ) : FilteredArrays :=
  let mf := if p.medianFilter % 2 == 0 then p.medianFilter + 1 else p.medianFilter
  let fv :=
    if 0 < p.medianFilter then medfilt mf raw
    else if 0 < p.savitzkyGolayPnts then savgolFilter p.savitzkyGolayPnts p.savitzkyGolayPoly raw
    else raw
  let d0 := npDiff fv
  let d1 :=
    if 0 < p.medianFilter then medfilt mf d0
    else if 0 < p.savitzkyGolayPnts then savgolFilter p.savitzkyGolayPnts p.savitzkyGolayPoly d0
    else d0
  ⟨fv, 0 :: d1.map fun q => q * dpms⟩

/-- Embedding of bAnalysis._getFilteredRecording (bAnalysis.py 621-646). -/
def getFilteredRecording (p : DetectParams) (raw : List ℚ) : List ℚ :=
  let mf := if p.medianFilter % 2 == 0 then p.medianFilter + 1 else p.medianFilter
  if 0 < p.medianFilter then medfilt mf raw
  else if 0 < p.savitzkyGolayPnts then savgolFilter p.savitzkyGolayPnts p.savitzkyGolayPoly raw
  else raw

/-- Embedding of bAnalysis._getBaselineSubtract (bAnalysis.py 648-667),
the voltage-clamp path: forces medianFilter 5 into the dictionary,
filters, and subtracts the mean from the filtered trace to produce the
derivative slot.  np.nanmean of an empty trace is NaN in the source; the
0 default is never read by the theorems. -/
def getBaselineSubtract (p : DetectParams) (raw : List ℚ) : FilteredArrays :=
  let fv := getFilteredRecording { p with medianFilter := 5 } raw
  let m := (npAverage fv).getD 0
  ⟨fv, fv.map fun q => q - m⟩

/-- Per-sweep raw arrays of a recording (the time axis is consumed only
by the linear-fit block, which is outside this embedding). -/
structure SweepData where
  sweepY : List ℚ
  sweepC : List ℚ
deriving DecidableEq

/-- Recording state: mode tag, sampling rate in points per millisecond
(integer: a non-integer rate would make _backupSpikeVm slice with float
indices and raise TypeError in the source), per-sweep raw arrays, and
the cached filtered arrays refreshed by rebuildFiltered. -/
structure RecState where
  recordingMode : String
  dpms : Nat
  sweeps : List SweepData
  filtered : List FilteredArrays
deriving DecidableEq

/-- Embedding of bAnalysis.rebuildFiltered (bAnalysis.py 613-619): the
current-clamp path takes the derivative, the voltage-clamp path baseline
subtracts, and any other mode tag leaves the cached filtered arrays
untouched (the source only logs a warning).  Neither branch passes the
detection dictionary of the pending run: _getDerivative and
_getBaselineSubtract are called with dDict None and therefore fall back
to bAnalysis.getDefaultDetection(), whatever configuration the run was
given. -/
def rebuildFiltered (st : RecState) : RecState :=
  if st.recordingMode == "I-Clamp" then
    { st with filtered := st.sweeps.map fun sd => getDerivative defaultDetection (st.dpms : ℚ) sd.sweepY }
  else if st.recordingMode == "V-Clamp" then
    { st with filtered := st.sweeps.map fun sd => getBaselineSubtract defaultDetection sd.sweepY }
  else st

/-! ## Amplitude-threshold detection: _spikeDetect_vm and _backupSpikeVm -/

/-- Upward-deflection and minimum-gap gate of _spikeDetect_vm
(bAnalysis.py 1085-1112): a crossing survives when the mean amplitude
over the 10 points after it strictly exceeds the mean over the 10 points
before it, and it is at least 75 ms (an internal constant, independent
of the configured refractory) after the last surviving crossing.  Empty
windows average to NaN and the comparison is then false, so the crossing
is dropped. -/
def vmUpwardGate (sweepY : List ℚ) (minISIpnts prePntUp : Int) :
    Option Int → List (Int × Option ErrDict) → List (Int × Option ErrDict)
  | _, [] => []
  | lastGood, (t, e) :: rest =>
    let preAvg := npAverage (pySlice sweepY (t - prePntUp) t)
    let postAvg := npAverage (pySlice sweepY (t + 1) (t + prePntUp + 1))
    match preAvg, postAvg with
    | some pa, some qa =>
      if pa < qa then
        match lastGood with
        | some lg =>
          if t - lg < minISIpnts then vmUpwardGate sweepY minISIpnts prePntUp lastGood rest
          else (t, e) :: vmUpwardGate sweepY minISIpnts prePntUp (some t) rest
        | none => (t, e) :: vmUpwardGate sweepY minISIpnts prePntUp (some t) rest
      else vmUpwardGate sweepY minISIpnts prePntUp lastGood rest
    | _, _ => vmUpwardGate sweepY minISIpnts prePntUp lastGood rest

/-- Embedding of bAnalysis._spikeDetect_vm (bAnalysis.py 1024-1118) on
one sweep: amplitude threshold crossings, an all-None parallel error
list, the upward-deflection gate with its fixed 75 ms minimum gap
(ms2Pnt_ truncates to int), then refractory collapsing of times and
errors together. -/
def spikeDetect_vm (p : DetectParams) (dpms : Nat) (filteredVm sweepY : List ℚ) :
    List Int × List (Option ErrDict) :=
  let spikeTimes0 := (crossings filteredVm p.mvThreshold).map fun n => (n : Int)
  let errs0 : List (Option ErrDict) := List.replicate spikeTimes0.length none
  let gated := vmUpwardGate sweepY ((75 : Int) * (dpms : Int)) 10 none (spikeTimes0.zip errs0)
  let goodTimes := gated.map fun p => p.1
  let goodErrs := gated.map fun p => p.2
  let collapsed := throwOutRefractory (dpms : ℚ) p.refractoryMs goodTimes
  let collapsedErrs :=
    (throwOutRefractoryErrs (dpms : ℚ) p.refractoryMs goodTimes (some goodErrs)).getD []
  (collapsed, collapsedErrs)

/-- One backward walk of _backupSpikeVm (bAnalysis.py 760-841).  The
comparison meanDiff < 0.7 * nextSD is restated exactly on squares; a NaN
mean (empty window) makes it false, as in Python.  backupNumPnts is an
integer because the source decrements it below zero when the walk stops
on its first iteration, which moves the onset forward.  The fuel only
bounds the recursion: the source loop stops after at most 21 iterations
because backupNumPnts == 20 forces the exit, so fuel 22 is never
exhausted and the fallback value is never produced. -/
def backupWalk (myVm : List ℚ) (binPnts halfBinPnts spikeTimePnts : Int) :
    Nat → Int → Int → Option ℚ → Int
  | 0, _, _, _ => spikeTimePnts
  | fuel + 1, atBinPnt, backupNumPnts, thisMeanIn =>
    let thisWin := pySlice myVm (atBinPnt - halfBinPnts) (atBinPnt + halfBinPnts)
    let thisMean := match thisMeanIn with
      | none => npAverage thisWin
      | some m => some m
    let nextWin := pySlice myVm (atBinPnt - 1 - binPnts - halfBinPnts)
      (atBinPnt - 1 - binPnts + halfBinPnts)
    let nextMean := npAverage nextWin
    let nextVar := npVariance nextWin
    let meanStop : Bool :=
      match thisMean, nextMean, nextVar with
      | some tm, some nm, some nv =>
        decide (tm - nm < 0) || decide ((tm - nm) ^ 2 < (49 / 100) * nv)
      | _, _, _ => false
    if meanStop || backupNumPnts == 20 then
      let b := backupNumPnts - 1
      if b < 4 then spikeTimePnts - (b * binPnts)
      else spikeTimePnts - ((b - 4) * binPnts)
    else
      backupWalk myVm binPnts halfBinPnts spikeTimePnts fuel (atBinPnt - binPnts)
        (backupNumPnts + 1) nextMean

/-- Embedding of bAnalysis._backupSpikeVm (bAnalysis.py 760-841): the
source overwrites its medianFilter argument with 5, median filters the
sweep amplitude, and walks each onset backward in 1 ms bins until the
window means stop diverging by more than 0.7 standard deviations (or 20
bins are reached), then steps forward 4 bins. -/
def backupSpikeVm (sweepY : List ℚ) (dpms : Nat) (spikeTimes : List Int) : List Int :=
  let myVm := medfilt 5 sweepY
  let binPnts : Int := (dpms : Int)
  let halfBinPnts : Int := ((dpms / 2 : Nat) : Int)
  spikeTimes.map fun t => backupWalk myVm binPnts halfBinPnts t 22 t 0 none

/-! ## SpikeFeatureExtractor: the record-building loop of spikeDetect__

Fields tied to the early-diastolic-duration linear fit (np.polyfit with
float conditioning warnings) are outside this embedding; no claim reads
them.  The bookkeeping strings copied verbatim from the configuration
(file, cellType, sex, condition, analysis and interface versions,
detectionType, include flag and the echoed detection parameters) are
likewise omitted from the record. -/

/-- Width measurement dictionary for one half-height fraction; fields
initialised to None or NaN in the source are none here. -/
structure WidthDict where
  halfHeight : Int
  risingPnt : Option Int
  risingVal : Option ℚ
  fallingPnt : Option Int
  fallingVal : Option ℚ
  widthPnts : Option Int
  widthMs : Option ℚ
deriving DecidableEq

/-- Width dictionary as initialised before the search (and left when the
search fails). -/
def defaultWidthDict (h : Int) : WidthDict :=
  ⟨h, none, none, none, none, none, none⟩

/-- Forward search from the peak within the half-width window for the
first filtered sample strictly below the half-height target. -/
def fallingSearch (vm : List ℚ) (peakPnt hwPnts : Int) (thisVm : ℚ) : Option Nat :=
  (pySlice vm peakPnt (peakPnt + hwPnts)).findIdx? fun q => decide (q < thisVm)

/-- Forward search from the onset toward the peak for the first filtered
sample strictly above the falling value. -/
def risingSearch (vm : List ℚ) (thresholdPnt peakPnt : Int) (fallingVal : ℚ) : Option Nat :=
  (pySlice vm thresholdPnt peakPnt).findIdx? fun q => decide (fallingVal < q)

/-- Half-height width computation for one height fraction (bAnalysis.py
1577-1676).  The final dictionary records the onset point as risingPnt
and fallingPnt minus thresholdPnt as widthPnts, but widthMs (also
returned separately as the flattened widths column value) is computed
from fallingPnt minus the searched rising point.  A failed search leaves
the default dictionary, a NaN flat value, and a spikeWidth error. -/
def widthOne (dpms : ℚ) (vm : List ℚ) (hwPnts thresholdPnt : Int) (thresholdVal : ℚ)
    (peakPnt : Int) (peakVal : ℚ) (i : Nat) (spikeTime : Int) (h : Int) :
    WidthDict × Option ℚ × Option ErrDict :=
  let thisVm := thresholdVal + (peakVal - thresholdVal) * ((h : ℚ) * (1 / 100))
  match fallingSearch vm peakPnt hwPnts thisVm with
  | none => (defaultWidthDict h, none, some (getErrorDict dpms i spikeTime "spikeWidth"))
  | some fp0 =>
    let fallingPnt := (fp0 : Int) + peakPnt
    let fallingVal := pyGet vm fallingPnt
    match risingSearch vm thresholdPnt peakPnt fallingVal with
    | none => (defaultWidthDict h, none, some (getErrorDict dpms i spikeTime "spikeWidth"))
    | some rp0 =>
      let risingPnt := (rp0 : Int) + thresholdPnt
      let widthPnts := fallingPnt - risingPnt
      let widthPnts2 := fallingPnt - thresholdPnt
      (⟨h, some thresholdPnt, some (pyGet vm risingPnt), some fallingPnt, some fallingVal,
         some widthPnts2, some ((widthPnts : ℚ) / dpms)⟩,
       some ((widthPnts : ℚ) / dpms), none)

/-- One spike record, with the analysed numeric fields embedded; point
fields initialised to Python None and numeric fields initialised to
float NaN are Option with none for the null state. -/
structure SpikeRec where
  sweep : Nat
  sweepSpikeNumber : Nat
  spikeNumber : Nat
  errors : List ErrDict
  dacCommand : ℚ
  thresholdPnt : Int
  thresholdVal : ℚ
  thresholdValDvdt : ℚ
  thresholdSec : ℚ
  peakPnt : Int
  peakVal : ℚ
  peakSec : ℚ
  peakHeight : ℚ
  preMinPnt : Option Int
  preMinVal : Option ℚ
  preSpikeDvdtMaxPnt : Option Int
  preSpikeDvdtMaxVal : Option ℚ
  preSpikeDvdtMaxVal2 : Option ℚ
  postSpikeDvdtMinPnt : Option Int
  postSpikeDvdtMinVal : Option ℚ
  postSpikeDvdtMinVal2 : Option ℚ
  isiPnts : Option Int
  isiMs : Option ℚ
  spikeFreqHz : Option ℚ
  cycleLengthPnts : Option Int
  cycleLengthMs : Option ℚ
  diastolicDurationMs : Option ℚ
  widths : List WidthDict
  widthsFlat : List (Int × Option ℚ)
deriving DecidableEq

/-- Diastolic-minimum search of one spike (bAnalysis.py 1334-1374),
entered only from the second spike of a sweep on: argmin over the mdp_ms
window before the onset, a local average around it, then a backward
search for the first sample strictly below that average.  Returns the
dictionary fields (None on failure), the local preMinPnt variable (which
keeps the argmin value when the backward search fails and is later used
for the diastolic duration), and the preMin errors.  An empty averaging
window gives a NaN average, every comparison against it is false, and
the source lands in the IndexError branch. -/
def preMinSearch (dpms : ℚ) (p : DetectParams) (vm : List ℚ) (avgWindowPnts : Int)
    (i : Nat) (t : Int) : Option Int × Option ℚ × Int × List ErrDict :=
  let mdpPnts : Int := pyInt (p.mdpMs * dpms)
  let startPnt : Int := if t - mdpPnts < 0 then 0 else t - mdpPnts
  let preRange := pySlice vm startPnt t
  let preMinPnt0 : Int := (npArgmin preRange : Int) + startPnt
  let avgRange := pySlice vm (preMinPnt0 - avgWindowPnts) (preMinPnt0 + avgWindowPnts)
  match npAverage avgRange with
  | none => (none, none, preMinPnt0, [getErrorDict dpms i t "preMin"])
  | some pv =>
    match (pySlice vm preMinPnt0 t).reverse.findIdx? fun q => decide (q < pv) with
    | some idx => (some (t - idx), some pv, t - idx, [])
    | none => (none, none, preMinPnt0, [getErrorDict dpms i t "preMin"])

/-- Record construction for one onset (bAnalysis.py 1211-1676 minus the
linear-fit block): peak, diastolic minimum (from the second spike of the
sweep on), derivative extrema, inter-spike interval, cycle length, and
the half-height widths.  Returns the record and the spikeWidth errors,
which the caller attaches at per-sweep index i of the global list,
reproducing the source's spikeDict[i] indexing.  An empty peak or
post-peak window would raise an uncaught ValueError in the source; the
junk values produced here in that case are never relied upon. -/
def buildSpikeRec (p : DetectParams) (dpms : Nat) (sweepNumber : Nat)
    (vm deriv sweepC : List ℚ) (spikeNumber : Nat) (prevRec : Option SpikeRec)
    (i : Nat) (t : Int) (detErr : Option ErrDict) : SpikeRec × List ErrDict :=
  let dq : ℚ := (dpms : ℚ)
  let peakWindowPnts := pyRound (dq * p.peakWindowMs)
  let avgWindowPnts : Int := ⌊(p.avgWindowMs * dq) / 2⌋
  let peakPnt : Int := (npArgmax (pySlice vm t (t + peakWindowPnts)) : Int) + t
  let peakVal : ℚ := npMax (pySlice vm t (t + peakWindowPnts))
  let thresholdVal := pyGet vm t
  let pm : Option Int × Option ℚ × Int × List ErrDict :=
    if i = 0 then (none, none, 0, [])
    else preMinSearch dq p vm avgWindowPnts i t
  let preSp : (Option Int × Option ℚ × Option ℚ) × List ErrDict :=
    let preRange3 := pySlice deriv t (peakPnt + 1)
    if preRange3.isEmpty then ((none, none, none), [getErrorDict dq i t "preSpikeDvDt"])
    else
      let mp : Int := (npArgmax preRange3 : Int) + t
      ((some mp, some (pyGet vm mp), some (pyGet deriv mp)), [])
  let postSpikePnts := pyRound (dq * 10)
  let postMp : Int := (npArgmin (pySlice deriv peakPnt (peakPnt + postSpikePnts)) : Int) + peakPnt
  let dd : Option ℚ := if 0 < i then some (((t - pm.2.2.1 : Int) : ℚ) / dq) else none
  let isiData : (Option Int × Option ℚ × Option ℚ × Option Int × Option ℚ) × List ErrDict :=
    if 0 < i then
      let prevThresh := (prevRec.map fun r => r.thresholdPnt).getD 0
      let isiPnts := t - prevThresh
      let isiMs := (isiPnts : ℚ) / dq
      let freq := 1 / (isiMs / 1000)
      match (prevRec.bind fun r => r.preMinPnt), pm.1 with
      | some a, some b =>
        ((some isiPnts, some isiMs, some freq, some (b - a), some (((b - a : Int) : ℚ) / dq)), [])
      | _, _ => ((some isiPnts, some isiMs, some freq, none, none), [getErrorDict dq i t "cycleLength"])
    else ((none, none, none, none, none), [])
  let hwWindowPnts := pyRound (p.halfWidthWindowMs * dq)
  let widthResults := p.halfHeights.map (widthOne dq vm hwWindowPnts t thresholdVal peakPnt peakVal i t)
  ({ sweep := sweepNumber
     sweepSpikeNumber := i
     spikeNumber := spikeNumber
     errors := detErr.toList ++ pm.2.2.2 ++ preSp.2 ++ isiData.2
     dacCommand := pyGet sweepC t
     thresholdPnt := t
     thresholdVal := thresholdVal
     thresholdValDvdt := pyGet deriv t
     thresholdSec := (t : ℚ) / dq / 1000
     peakPnt := peakPnt
     peakVal := peakVal
     peakSec := (peakPnt : ℚ) / dq / 1000
     peakHeight := peakVal - thresholdVal
     preMinPnt := pm.1
     preMinVal := pm.2.1
     preSpikeDvdtMaxPnt := preSp.1.1
     preSpikeDvdtMaxVal := preSp.1.2.1
     preSpikeDvdtMaxVal2 := preSp.1.2.2
     postSpikeDvdtMinPnt := some postMp
     postSpikeDvdtMinVal := some (pyGet vm postMp)
     postSpikeDvdtMinVal2 := some (pyGet deriv postMp)
     isiPnts := isiData.1.1
     isiMs := isiData.1.2.1
     spikeFreqHz := isiData.1.2.2.1
     cycleLengthPnts := isiData.1.2.2.2.1
     cycleLengthMs := isiData.1.2.2.2.2
     diastolicDurationMs := dd
     widths := widthResults.map fun wr => wr.1
     widthsFlat := p.halfHeights.zip (widthResults.map fun wr => wr.2.1) },
   widthResults.filterMap fun wr => wr.2.2)

/-- Append one error dictionary to the record at a given index of the
global record list (the source's spikeDict[i]['errors'].append). -/
def appendErrAt (ed : ErrDict) : Nat → List SpikeRec → List SpikeRec
  | _, [] => []
  | 0, r :: rest => { r with errors := r.errors ++ [ed] } :: rest
  | n + 1, r :: rest => r :: appendErrAt ed n rest

/-- Per-sweep record-building loop of spikeDetect__: one record per
onset appended to the global list; the spikeWidth errors of spike i are
then attached to the record at global index i (not iIdx), exactly as the
source indexes spikeDict[i]. -/
def buildLoop (p : DetectParams) (dpms : Nat) (sweepNumber : Nat)
    (vm deriv sweepC : List ℚ) (errs : List (Option ErrDict)) :
    List SpikeRec → Nat → List Int → List SpikeRec
  | recs, _, [] => recs
  | recs, i, t :: rest =>
    let (rec, wErrs) := buildSpikeRec p dpms sweepNumber vm deriv sweepC recs.length
      recs.getLast? i t (errs.getD i none)
    let recs2 := wErrs.foldl (fun acc ed => appendErrAt ed i acc) (recs ++ [rec])
    buildLoop p dpms sweepNumber vm deriv sweepC errs recs2 (i + 1) rest

/-- Peak-height floor gate of spikeDetect__ (bAnalysis.py 1189-1203),
applied when onlyPeaksAbove_mV is set: keep onsets whose filtered peak
within the peak window strictly exceeds the floor, filtering the
parallel error list by the same indices. -/
def onlyPeaksGate (p : DetectParams) (dpms : Nat) (vm : List ℚ)
    (times : List Int) (errs : List (Option ErrDict)) : List Int × List (Option ErrDict) :=
  match p.onlyPeaksAboveMv with
  | none => (times, errs)
  | some floorMv =>
    let pw := pyRound ((dpms : ℚ) * p.peakWindowMs)
    let keptIdx := (List.range times.length).filter fun i =>
      decide (floorMv < npMax (pySlice vm (times.getD i 0) (times.getD i 0 + pw)))
    (keptIdx.map fun i => times.getD i 0, keptIdx.map fun i => errs.getD i none)

/-- Detection and record building for one sweep (bAnalysis.py
1130-1752): dispatch on dvdtThreshold (None or NaN selects amplitude
mode, optionally followed by the backup walk), apply the peak floor
gate, and append one record per onset to the global list.  The
downstream report construction (sanpy.bExport, not among the repository
sources) and the error-report data frame are not modelled. -/
def detectSweepRecords (p : DetectParams) (dpms : Nat) (sweepNumber : Nat)
    (sd : SweepData) (fa : FilteredArrays) (recs : List SpikeRec) : List SpikeRec :=
  let d0 :=
    match p.dvdtThreshold with
    | none =>
      let te := spikeDetect_vm p dpms fa.filteredVm sd.sweepY
      (if p.doBackupSpikeVm then backupSpikeVm sd.sweepY dpms te.1 else te.1, te.2)
    | some _ =>
      let d := spikeDetect_dvdt p (dpms : ℚ) fa.filteredDeriv sd.sweepY
      (d.times, d.errs)
  let g := onlyPeaksGate p dpms fa.filteredVm d0.1 d0.2
  buildLoop p dpms sweepNumber fa.filteredVm fa.filteredDeriv sd.sweepC g.2 recs 0 g.1

/-- Sweep loop of bAnalysis.spikeDetect: records of all sweeps
accumulate into one global list. -/
def runSweeps (p : DetectParams) (dpms : Nat) :
    List SpikeRec → Nat → List (SweepData × FilteredArrays) → List SpikeRec
  | recs, _, [] => recs
  | recs, sweepNumber, sf :: rest =>
    runSweeps p dpms (detectSweepRecords p dpms sweepNumber sf.1 sf.2 recs) (sweepNumber + 1) rest

/-- Result of one detection run: the refreshed recording state, the
replaced spike-record collection, and the wall-clock metadata the
detectors store (dateAnalyzed, detectionType). -/
structure RunResult where
  state : RecState
  spikeDict : List SpikeRec
  dateAnalyzed : Option String
  detectionType : Option String

/-- Embedding of bAnalysis.spikeDetect (bAnalysis.py 1112-1129): reset
the spike collection, rebuild the filtered arrays (spikeDetect__ calls
rebuildFiltered once per sweep with identical effect, so it is applied
once here), run every sweep, and record the formatted wall-clock string
now as dateAnalyzed metadata. -/
def spikeDetectRun (now : String) (st : RecState) (p : DetectParams) : RunResult :=
  let st1 := rebuildFiltered st
  { state := st1
    spikeDict := runSweeps p st1.dpms [] 0 (st1.sweeps.zip st1.filtered)
    dateAnalyzed := if st1.sweeps.isEmpty then none else some now
    detectionType :=
      if st1.sweeps.isEmpty then none
      else match p.dvdtThreshold with
        | none => some "mvThreshold"
        | some _ => some "dVdtThreshold" }

/-! ## SpikeClipBuilder: _makeSpikeClips -/

/-- Clip collections built by _makeSpikeClips: the shared relative time
axis, the accepted clips, and one copy of the axis per accepted clip. -/
structure ClipsOut where
  spikeClipsX : List ℚ
  spikeClips : List (List ℚ)
  spikeClipsX2 : List (List ℚ)
deriving DecidableEq

/-- Clip width in points: the width in ms rounded to points and forced
even (the source increments an odd width). -/
def clipWidthPnts (dpms spikeClipWidthMs : ℚ) : Int :=
  let c := pyRound (spikeClipWidthMs * dpms)
  if c % 2 = 0 then c else c + 1

/-- Expected number of points in every clip (the length of the shared
relative time axis). -/
def clipNumPoints (dpms spikeClipWidthMs : ℚ) : Nat :=
  (clipWidthPnts dpms spikeClipWidthMs).toNat

/-- Clip collection loop of _makeSpikeClips: a clip whose slice length
differs from the expected clip length (truncation at a recording edge)
is skipped; the source only emits a logger.error call for it. -/
def makeSpikeClipsLoop (sweepY : List ℚ) (half : Int) (numPts : Nat) : List Int → List (List ℚ)
  | [] => []
  | t :: rest =>
    let cur := pySlice sweepY (t - half) (t + half)
    if cur.length = numPts then cur :: makeSpikeClipsLoop sweepY half numPts rest
    else makeSpikeClipsLoop sweepY half numPts rest

/-- Embedding of bAnalysis._makeSpikeClips (bAnalysis.py 1754-1827) in
the single-sweep case, on the threshold points read back through
getStat: build the shared relative time axis and collect the clips of
matching length.  The function reads the spike records only through
their threshold points and creates no error dictionary anywhere. -/
def makeSpikeClips (dpms spikeClipWidthMs : ℚ) (sweepY : List ℚ) (times : List Int) : ClipsOut :=
  let c := clipWidthPnts dpms spikeClipWidthMs
  let half : Int := c / 2
  let xs := (List.range c.toNat).map fun x : ℕ => ((x : ℚ) - (half : ℚ)) / dpms
  let clips := makeSpikeClipsLoop sweepY half xs.length times
  ⟨xs, clips, clips.map fun _ => xs⟩

/-- State-passing form of _makeSpikeClips over the spike records: the
record list is read (threshold points) and returned unchanged, making
explicit that clip building attaches nothing to any spike. -/
def makeSpikeClipsOnRecords (dpms spikeClipWidthMs : ℚ) (sweepY : List ℚ)
    (recs : List SpikeRec) : List SpikeRec × ClipsOut :=
  (recs, makeSpikeClips dpms spikeClipWidthMs sweepY (recs.map fun r => r.thresholdPnt))

/-! ## Theorems for C2, C5, C6, C7, C9 -/

/-- C2: determinism of a detection run.  The embedding threads the
formatted wall-clock string now (read by the detectors via
datetime.datetime.now) through the run; it reaches only the dateAnalyzed
metadata, so two runs on the same recording state and configuration
produce identical spike-record collections whatever the clock says. -/
theorem spikeDetectRun_deterministic (now1 now2 : String) (st : RecState) (p : DetectParams) :
    (spikeDetectRun now1 st p).spikeDict = (spikeDetectRun now2 st p).spikeDict ∧
    (spikeDetectRun now1 st p).dateAnalyzed =
      (if (rebuildFiltered st).sweeps.isEmpty then none else some now1) :=
  ⟨rfl, rfl⟩

/-- Projection: the intra-sweep spike index stored in a record is the
loop index it was built with. -/
theorem buildSpikeRec_sweepSpikeNumber (p : DetectParams) (dpms : Nat) (sweepNumber : Nat)
    (vm deriv sweepC : List ℚ) (n : Nat) (prev : Option SpikeRec) (i : Nat) (t : Int)
    (e : Option ErrDict) :
    ((buildSpikeRec p dpms sweepNumber vm deriv sweepC n prev i t e).1).sweepSpikeNumber = i := rfl

/-- Null-field property of the first spike of a sweep: a record whose
intra-sweep index is 0 has no diastolic minimum, no inter-spike
interval, no instantaneous frequency and no cycle length. -/
def firstSpikeNulls (r : SpikeRec) : Prop :=
  r.sweepSpikeNumber = 0 →
    r.preMinPnt = none ∧ r.preMinVal = none ∧ r.isiPnts = none ∧ r.isiMs = none ∧
      r.spikeFreqHz = none ∧ r.cycleLengthPnts = none ∧ r.cycleLengthMs = none

/-- Every record built by buildSpikeRec satisfies the first-spike
null-field property: at index 0 the diastolic-minimum and interval
blocks are skipped and the fields keep their initial null values. -/
theorem buildSpikeRec_firstSpikeNulls (p : DetectParams) (dpms : Nat) (sweepNumber : Nat)
    (vm deriv sweepC : List ℚ) (n : Nat) (prev : Option SpikeRec) (i : Nat) (t : Int)
    (e : Option ErrDict) :
    firstSpikeNulls (buildSpikeRec p dpms sweepNumber vm deriv sweepC n prev i t e).1 := by
  intro h0
  have hi : i = 0 := by
    simpa [buildSpikeRec_sweepSpikeNumber] using h0
  subst hi
  exact ⟨rfl, rfl, rfl, rfl, rfl, rfl, rfl⟩

/-- Appending an error dictionary to one record of the list does not
touch the null fields or the intra-sweep index. -/
theorem appendErrAt_preserves (ed : ErrDict) : ∀ (n : Nat) (recs : List SpikeRec),
    (∀ r ∈ recs, firstSpikeNulls r) → ∀ r ∈ appendErrAt ed n recs, firstSpikeNulls r
  | _, [], _ => by simp [appendErrAt]
  | 0, r0 :: rest, h => by
    intro r hr
    rcases List.mem_cons.mp hr with he | hm
    · intro h0
      rw [he] at h0 ⊢
      exact h r0 (List.mem_cons_self r0 rest) h0
    · exact h r (List.mem_cons_of_mem r0 hm)
  | n + 1, r0 :: rest, h => by
    intro r hr
    rcases List.mem_cons.mp hr with he | hm
    · rw [he]
      exact h r0 (List.mem_cons_self r0 rest)
    · exact appendErrAt_preserves ed n rest (fun x hx => h x (List.mem_cons_of_mem r0 hx)) r hm

/-- Attaching a batch of width errors preserves the null-field
property. -/
theorem foldl_appendErrAt_preserves : ∀ (eds : List ErrDict) (i : Nat) (recs : List SpikeRec),
    (∀ r ∈ recs, firstSpikeNulls r) →
    ∀ r ∈ eds.foldl (fun acc ed => appendErrAt ed i acc) recs, firstSpikeNulls r
  | [], _, _, h => h
  | ed :: rest, i, recs, h =>
    foldl_appendErrAt_preserves rest i _ (appendErrAt_preserves ed i recs h)

/-- The record-building loop preserves the null-field property of every
record in the global list. -/
theorem buildLoop_preserves (p : DetectParams) (dpms : Nat) (sweepNumber : Nat)
    (vm deriv sweepC : List ℚ) (errs : List (Option ErrDict)) :
    ∀ (times : List Int) (recs : List SpikeRec) (i : Nat),
      (∀ r ∈ recs, firstSpikeNulls r) →
      ∀ r ∈ buildLoop p dpms sweepNumber vm deriv sweepC errs recs i times, firstSpikeNulls r
  | [], recs, i, h => by simpa [buildLoop] using h
  | t :: rest, recs, i, h => by
    rw [buildLoop]
    refine buildLoop_preserves p dpms sweepNumber vm deriv sweepC errs rest _ (i + 1) ?_
    refine foldl_appendErrAt_preserves _ i _ ?_
    intro r hr
    rcases List.mem_append.mp hr with hm | hm
    · exact h r hm
    · rw [List.mem_singleton.mp hm]
      exact buildSpikeRec_firstSpikeNulls p dpms sweepNumber vm deriv sweepC recs.length
        recs.getLast? i t (errs.getD i none)

/-- One sweep of detection preserves the null-field property. -/
theorem detectSweepRecords_preserves (p : DetectParams) (dpms : Nat) (sweepNumber : Nat)
    (sd : SweepData) (fa : FilteredArrays) (recs : List SpikeRec)
    (h : ∀ r ∈ recs, firstSpikeNulls r) :
    ∀ r ∈ detectSweepRecords p dpms sweepNumber sd fa recs, firstSpikeNulls r := by
  unfold detectSweepRecords
  exact buildLoop_preserves p dpms sweepNumber _ _ _ _ _ recs 0 h

/-- The sweep loop preserves the null-field property. -/
theorem runSweeps_preserves (p : DetectParams) (dpms : Nat) :
    ∀ (sweeps : List (SweepData × FilteredArrays)) (recs : List SpikeRec) (sweepNumber : Nat),
      (∀ r ∈ recs, firstSpikeNulls r) →
      ∀ r ∈ runSweeps p dpms recs sweepNumber sweeps, firstSpikeNulls r
  | [], _, _, h => by simpa [runSweeps] using h
  | sf :: rest, recs, sweepNumber, h => by
    rw [runSweeps]
    exact runSweeps_preserves p dpms rest _ (sweepNumber + 1)
      (detectSweepRecords_preserves p dpms sweepNumber sf.1 sf.2 recs h)

/-- C5: in every detection run, every record that is the first spike of
its sweep (intra-sweep index 0) has null diastolic-minimum fields
(preMinPnt None, preMinVal NaN), null inter-spike interval and
instantaneous frequency, and null cycle length; those fields are only
computed from the second spike of a sweep on. -/
theorem spikeDetectRun_first_spike_nulls (now : String) (st : RecState) (p : DetectParams)
    (r : SpikeRec) (hr : r ∈ (spikeDetectRun now st p).spikeDict)
    (h0 : r.sweepSpikeNumber = 0) :
    r.preMinPnt = none ∧ r.preMinVal = none ∧ r.isiPnts = none ∧ r.isiMs = none ∧
      r.spikeFreqHz = none ∧ r.cycleLengthPnts = none ∧ r.cycleLengthMs = none := by
  have hrun : r ∈ runSweeps p (rebuildFiltered st).dpms [] 0
      ((rebuildFiltered st).sweeps.zip (rebuildFiltered st).filtered) := hr
  exact runSweeps_preserves p (rebuildFiltered st).dpms _ [] 0
    (fun x hx => absurd hx (List.not_mem_nil x)) r hrun h0

/-- Recording state for the C5 witness run: an unknown mode tag leaves
the cached filtered arrays (the concrete detection input) in place. -/
def c5state : RecState := ⟨"", 1, [⟨ctrexSweepY, ctrexSweepY⟩], [⟨ctrexSweepY, ctrexDeriv⟩]⟩

/-- Junk record used only as a headD default in witnesses. -/
def emptySpikeRec : SpikeRec :=
  ⟨0, 0, 0, [], 0, 0, 0, 0, 0, 0, 0, 0, 0, none, none, none, none, none, none, none, none,
   none, none, none, none, none, none, [], []⟩

unseal Rat.mul Rat.add Rat.sub Rat.inv in
/-- Witness for C5: the concrete detection run finds two spikes, and its
first record (intra-sweep index 0) has every nullable first-spike field
null. -/
theorem spikeDetectRun_first_spike_nulls_witness :
    (((spikeDetectRun "2021-05-01 12:00:00" c5state ctrexParams).spikeDict.headD
        emptySpikeRec).preMinPnt = none) ∧
    (((spikeDetectRun "2021-05-01 12:00:00" c5state ctrexParams).spikeDict.headD
        emptySpikeRec).isiMs = none) ∧
    (((spikeDetectRun "2021-05-01 12:00:00" c5state ctrexParams).spikeDict.headD
        emptySpikeRec).cycleLengthMs = none) := by
  have h := spikeDetectRun_first_spike_nulls "2021-05-01 12:00:00" c5state ctrexParams
    ((spikeDetectRun "2021-05-01 12:00:00" c5state ctrexParams).spikeDict.headD emptySpikeRec)
    (by decide) (by decide)
  exact ⟨h.1, h.2.2.2.1, h.2.2.2.2.2.2⟩

/-- C6 amended: when both half-height searches succeed, the recorded
width dictionary stores the onset point as risingPnt, fallingPnt minus
the onset as widthPnts, and a widthMs (also the flattened widths column
value) equal to fallingPnt minus the searched rising point, divided by
dataPointsPerMs.  The claim's onset-based width is what widthPnts holds;
widthMs is rising-point based. -/
theorem widthOne_success (dpms : ℚ) (vm : List ℚ) (hw tP : Int) (tV : ℚ) (pP : Int) (pV : ℚ)
    (i : Nat) (st : Int) (h : Int) (f r : Nat)
    (hf : fallingSearch vm pP hw (tV + (pV - tV) * ((h : ℚ) * (1 / 100))) = some f)
    (hr : risingSearch vm tP pP (pyGet vm ((f : Int) + pP)) = some r) :
    widthOne dpms vm hw tP tV pP pV i st h =
      (⟨h, some tP, some (pyGet vm ((r : Int) + tP)), some ((f : Int) + pP),
        some (pyGet vm ((f : Int) + pP)), some ((f : Int) + pP - tP),
        some ((((f : Int) + pP - ((r : Int) + tP) : Int) : ℚ) / dpms)⟩,
       some ((((f : Int) + pP - ((r : Int) + tP) : Int) : ℚ) / dpms), none) := by
  simp only [widthOne, hf, hr]

unseal Rat.mul Rat.add Rat.sub Rat.inv in
/-- Witness for the amended C6 theorem on a concrete spike shape: the
falling search lands at offset 2 from the peak and the rising search at
offset 2 from the onset. -/
theorem widthOne_success_witness :
    widthOne 1 [0, 2, 6, 10, 6, 4, 0] 4 0 0 3 10 0 0 50 =
      (⟨50, some 0, some (pyGet [0, 2, 6, 10, 6, 4, 0] (((2 : Nat) : Int) + 0)),
        some (((2 : Nat) : Int) + 3), some (pyGet [0, 2, 6, 10, 6, 4, 0] (((2 : Nat) : Int) + 3)),
        some (((2 : Nat) : Int) + 3 - 0),
        some (((((2 : Nat) : Int) + 3 - (((2 : Nat) : Int) + 0) : Int) : ℚ) / 1)⟩,
       some (((((2 : Nat) : Int) + 3 - (((2 : Nat) : Int) + 0) : Int) : ℚ) / 1), none) :=
  widthOne_success 1 [0, 2, 6, 10, 6, 4, 0] 4 0 0 3 10 0 0 50 2 2 (by decide) (by decide)

unseal Rat.mul Rat.add Rat.sub Rat.inv in
/-- Counterexample for C6: on the same concrete spike the recorded
widthMs (and the flattened widths value) is 3 ms, computed from falling
point 5 minus rising point 2, while the claim's onset-based value
(falling point minus onset point, over dataPointsPerMs) is 5 ms; only
the widthPnts field holds the onset-based 5 points. -/
theorem widthOne_ms_is_rising_based :
    (widthOne 1 [0, 2, 6, 10, 6, 4, 0] 4 0 0 3 10 0 0 50).1.fallingPnt = some 5 ∧
    (widthOne 1 [0, 2, 6, 10, 6, 4, 0] 4 0 0 3 10 0 0 50).1.widthPnts = some 5 ∧
    (widthOne 1 [0, 2, 6, 10, 6, 4, 0] 4 0 0 3 10 0 0 50).1.widthMs = some 3 ∧
    (widthOne 1 [0, 2, 6, 10, 6, 4, 0] 4 0 0 3 10 0 0 50).2.1 = some 3 ∧
    ((5 : ℚ) - 0) / 1 = 5 ∧ ¬ ((3 : ℚ) = 5) := by
  refine ⟨by decide, by decide, by decide, by decide, by norm_num, by norm_num⟩

/-- Raw sweep of the C7 failing input. -/
def c7raw : List ℚ := [0, 0, 35, 0, 0]

/-- Detection configuration of the C7 failing input: the run requests a
median filter of width 3. -/
def c7cfg : DetectParams := { defaultDetection with medianFilter := 3 }

/-- Current-clamp recording state of the C7 failing input. -/
def c7state : RecState := ⟨"I-Clamp", 1, [⟨c7raw, c7raw⟩], []⟩

unseal Rat.mul Rat.add Rat.sub Rat.inv in
/-- C7: a detection run with medianFilter 3 caches filtered arrays built
with the default dictionary (Savitzky-Golay 5/2), not with the config
passed to the run: the cached amplitude is the Savitzky-Golay result
while filtering c7raw as the run's configuration directs (median width
3, as _getDerivative would with that dictionary) gives all zeros.  The
final conjunct shows the cached state is independent of the run's
configuration altogether. -/
theorem rebuildFiltered_ignores_run_config :
    ((spikeDetectRun "2021-05-01 12:00:00" c7state c7cfg).state.filtered.map
        fun fa => fa.filteredVm) = [[-3, 12, 17, 12, -3]] ∧
    (getDerivative c7cfg 1 c7raw).filteredVm = [0, 0, 0, 0, 0] ∧
    ¬ ((spikeDetectRun "2021-05-01 12:00:00" c7state c7cfg).state.filtered.map
        fun fa => fa.filteredVm) = [(getDerivative c7cfg 1 c7raw).filteredVm] ∧
    ∀ p' : DetectParams,
      (spikeDetectRun "2021-05-01 12:00:00" c7state p').state =
        (spikeDetectRun "2021-05-01 12:00:00" c7state c7cfg).state := by
  refine ⟨by decide, by decide, by decide, fun p' => rfl⟩

/-- The clip-collection loop keeps exactly the slices whose length
matches the expected clip length. -/
theorem makeSpikeClipsLoop_eq_filter (sweepY : List ℚ) (half : Int) (n : Nat) :
    ∀ times : List Int, makeSpikeClipsLoop sweepY half n times =
      ((times.map fun t => pySlice sweepY (t - half) (t + half)).filter
        fun c => c.length == n)
  | [] => rfl
  | t :: rest => by
    simp only [makeSpikeClipsLoop, List.map_cons, List.filter_cons]
    by_cases hc : (pySlice sweepY (t - half) (t + half)).length = n
    · simp [hc, makeSpikeClipsLoop_eq_filter sweepY half n rest]
    · simp [hc, makeSpikeClipsLoop_eq_filter sweepY half n rest]

/-- C9: clip building returns the spike records unchanged (no error
dictionary is created or attached anywhere in _makeSpikeClips), and the
returned clip collection is exactly the threshold-centred slices whose
length equals the expected clip length: a truncated boundary slice is
silently dropped, not padded. -/
theorem makeSpikeClips_drops_short (dpms w : ℚ) (sweepY : List ℚ) (recs : List SpikeRec) :
    (makeSpikeClipsOnRecords dpms w sweepY recs).1 = recs ∧
    (makeSpikeClipsOnRecords dpms w sweepY recs).2.spikeClips =
      (((recs.map fun r => r.thresholdPnt).map fun t =>
        pySlice sweepY (t - clipWidthPnts dpms w / 2) (t + clipWidthPnts dpms w / 2)).filter
        fun c => c.length == clipNumPoints dpms w) := by
  refine ⟨rfl, ?_⟩
  show (makeSpikeClips dpms w sweepY (recs.map fun r => r.thresholdPnt)).spikeClips = _
  have hlen : ∀ c : Int,
      (List.map (fun x : ℕ => ((x : ℚ) - ((c / 2 : Int) : ℚ)) / dpms) (List.range c.toNat)).length =
        c.toNat := by
    intro c
    rw [List.length_map, List.length_range]
  simp only [makeSpikeClips, hlen]
  rw [makeSpikeClipsLoop_eq_filter]
  rfl

end BAnalysis
